import Mathlib

/-
Verification of the Mlabs-SOD orchestrator core: a shallow embedding of the
durable job queue, dispatcher, event ingestion and stale-job recovery, with
theorems settling the frozen claims about it.

Embedding conventions:
- Timestamps are natural numbers (minutes since an arbitrary epoch); the SQL
  condition "updated_at < now() - interval m minutes" is rendered additively
  as "updated_at + m < now" to avoid truncated natural subtraction.
- Job and event ids are natural numbers allocated by counters in the store
  (the database generates opaque unique ids).
- JSON detail payloads are projected onto the fields the code reads
  (message, pr_url, live_url, netlify_site_id, neon_project_id,
  execution_id, error); JavaScript truthiness of an optional string is
  modelled by truthy (absent or empty means falsy).
- Outbound HTTP calls (per-job callback posts, downstream notifier posts)
  are recorded as Effect values; delivery is fire-and-forget in the source
  and out of scope.
-/

namespace MlabsSOD

/-- Orchestration lifecycle, from src/types.ts (JobStatus). -/
inductive JobStatus where
  | pending
  | running
  | completed
  | failed
deriving DecidableEq, Repr

/-- Fine-grained worker-facing state, from src/types.ts (BuildStatus). -/
inductive BuildStatus where
  | queued
  | cloning
  | installing
  | building
  | testing
  | deploying
  | deployed
  | completed
  | error
  | failed
  | cancelled
deriving DecidableEq, Repr

/-- Projection of a JSON event-detail object onto the fields the code reads.
Each field is absent (none) when the JSON key is missing. -/
structure Detail where
  message : Option String := none
  pr_url : Option String := none
  live_url : Option String := none
  netlify_site_id : Option String := none
  neon_project_id : Option String := none
  execution_id : Option String := none
  error : Option String := none
deriving DecidableEq, Repr

/-- A row of the jobs table, from src/types.ts (Job) and src/db/schema.sql.
schema.sql declares no build_status or build_message column, so both are
modelled as optional and absent at creation; they are written only by
updateBuildStatus. -/
structure Job where
  id : Nat
  repo_url : String
  branch : String
  prd_path : String
  mode : String
  status : JobStatus
  metadata : Option String
  callback_url : Option String
  cloud_run_execution_id : Option String
  pr_url : Option String
  live_url : Option String
  netlify_site_id : Option String
  neon_project_id : Option String
  build_status : Option BuildStatus
  build_message : Option String
  created_at : Nat
  updated_at : Nat
deriving DecidableEq, Repr

/-- A row of the job_events table, from src/types.ts (JobEvent). -/
structure JobEvent where
  id : Nat
  job_id : Nat
  event : String
  detail : Option Detail
  created_at : Nat
deriving DecidableEq, Repr

/-- The persistent store: the two tables plus id-allocation counters.
Rows are kept in insertion order. -/
structure Store where
  jobs : List Job
  events : List JobEvent
  nextJobId : Nat
  nextEventId : Nat
deriving DecidableEq, Repr

/-- JavaScript truthiness of an optional string: absent and empty are falsy. -/
def truthy : Option String → Bool
  | some s => decide (s ≠ "")
  | none => false

/-- The pattern "x or null" applied to an optional string. -/
def orNull (o : Option String) : Option String :=
  if truthy o then o else none

/-- The pattern "x or defaultValue" applied to an optional string. -/
def orDefault (o : Option String) (d : String) : String :=
  match o with
  | some s => if s = "" then d else s
  | none => d

/-- SELECT * FROM jobs WHERE id = $1, from getJob in src/db/queries.ts. -/
def getJob (s : Store) (id : Nat) : Option Job :=
  s.jobs.find? (fun j => decide (j.id = id))

/-- SELECT COUNT(*) FROM jobs WHERE status = running, from countRunningJobs
in src/db/queries.ts. -/
def countRunningJobs (s : Store) : Nat :=
  s.jobs.countP (fun j => decide (j.status = JobStatus.running))

/-- UPDATE jobs SET ... WHERE id = $n: apply g to every row whose id matches. -/
def updateWhere (s : Store) (id : Nat) (g : Job → Job) : Store :=
  { s with jobs := s.jobs.map (fun j => if j.id = id then g j else j) }

/-- The per-row effect of updateJobStatus in src/db/queries.ts: the source
issues one of two UPDATE statements depending on the truthiness of the
executionId argument; both set status and bump updated_at, and the first
additionally writes cloud_run_execution_id. -/
def applyStatus (status : JobStatus) (executionId : Option String) (now : Nat) (j : Job) : Job :=
  if truthy executionId then
    { j with status := status, cloud_run_execution_id := executionId, updated_at := now }
  else
    { j with status := status, updated_at := now }

/-- updateJobStatus from src/db/queries.ts. No guard on the current status:
the requested status is written unconditionally. -/
def updateJobStatus (s : Store) (id : Nat) (status : JobStatus) (executionId : Option String) (now : Nat) : Store :=
  updateWhere s id (applyStatus status executionId now)

/-- updateBuildStatus from src/db/queries.ts: UPDATE jobs SET build_status,
build_message, updated_at = now() WHERE id. -/
def updateBuildStatus (s : Store) (id : Nat) (bs : BuildStatus) (msg : String) (now : Nat) : Store :=
  updateWhere s id (fun j => { j with build_status := some bs, build_message := some msg, updated_at := now })

/-- The inline UPDATE jobs SET pr_url = $1 WHERE id = $2 in
src/routes/status.ts (pr_created branch); it does not touch updated_at. -/
def setPrUrl (s : Store) (id : Nat) (pr : Option String) : Store :=
  updateWhere s id (fun j => { j with pr_url := pr })

/-- The inline UPDATE jobs SET live_url, netlify_site_id, neon_project_id in
src/routes/status.ts (deployed branch); it does not touch updated_at. -/
def setDeployedFacts (s : Store) (id : Nat) (live site proj : Option String) : Store :=
  updateWhere s id (fun j => { j with live_url := live, netlify_site_id := site, neon_project_id := proj })

/-- addJobEvent from src/db/queries.ts: INSERT INTO job_events. -/
def addJobEvent (s : Store) (jobId : Nat) (event : String) (detail : Option Detail) (now : Nat) : Store :=
  { s with
    events := s.events ++ [{ id := s.nextEventId, job_id := jobId, event := event, detail := detail, created_at := now }],
    nextEventId := s.nextEventId + 1 }

/-- ORDER BY created_at LIMIT 1 over a candidate list: some row with minimal
created_at (on ties the earliest-inserted candidate is a legitimate pick). -/
def minByCreatedAt : List Job → Option Job
  | [] => none
  | j :: t =>
    match minByCreatedAt t with
    | none => some j
    | some m => if m.created_at < j.created_at then some m else some j

/-- ORDER BY created_at DESC LIMIT 1 over a candidate list. -/
def maxByCreatedAt : List Job → Option Job
  | [] => none
  | j :: t =>
    match maxByCreatedAt t with
    | none => some j
    | some m => if j.created_at < m.created_at then some m else some j

/-- getNextPendingJob from src/db/queries.ts: SELECT * FROM jobs WHERE
status = pending ORDER BY created_at LIMIT 1 FOR UPDATE SKIP LOCKED.
The statement is a bare SELECT issued outside any transaction: it reads the
oldest pending row and performs no write, so the returned row still has
status = pending. -/
def getNextPendingJob (s : Store) : Option Job :=
  minByCreatedAt (s.jobs.filter (fun j => decide (j.status = JobStatus.pending)))

/-- findExistingJob from src/db/queries.ts: most recently created job for
the (repo_url, branch) pair whose status is pending or running. -/
def findExistingJob (s : Store) (repoUrl branch : String) : Option Job :=
  maxByCreatedAt (s.jobs.filter (fun j =>
    decide (j.repo_url = repoUrl ∧ j.branch = branch ∧
      (j.status = JobStatus.pending ∨ j.status = JobStatus.running))))

/-- The WHERE clause of markStaleJobsFailed: status = running AND
updated_at < now() - interval of timeoutMinutes (rendered additively). -/
def isStale (timeoutMinutes now : Nat) (j : Job) : Bool :=
  decide (j.status = JobStatus.running ∧ j.updated_at + timeoutMinutes < now)

/-- markStaleJobsFailed from src/db/queries.ts: UPDATE jobs SET
status = failed, updated_at = now() WHERE stale; returns the row count. -/
def markStaleJobsFailed (s : Store) (timeoutMinutes now : Nat) : Store × Nat :=
  ({ s with jobs := s.jobs.map (fun j =>
      if isStale timeoutMinutes now j then { j with status := JobStatus.failed, updated_at := now } else j) },
   s.jobs.countP (isStale timeoutMinutes now))

/-- Parameters of createJob in src/db/queries.ts (CreateJobParams). -/
structure CreateJobParams where
  repo_url : String
  branch : String
  prd_path : String
  mode : Option String
  metadata : Option String
  callback_url : Option String
deriving DecidableEq, Repr

/-- createJob from src/db/queries.ts: INSERT INTO jobs with the schema.sql
defaults (status = pending, created_at = updated_at = now()); mode falls
back to "full-build" and callback_url to null when falsy. -/
def createJob (s : Store) (p : CreateJobParams) (now : Nat) : Store × Job :=
  let job : Job :=
    { id := s.nextJobId
      repo_url := p.repo_url
      branch := p.branch
      prd_path := p.prd_path
      mode := orDefault p.mode "full-build"
      status := JobStatus.pending
      metadata := p.metadata
      callback_url := orNull p.callback_url
      cloud_run_execution_id := none
      pr_url := none
      live_url := none
      netlify_site_id := none
      neon_project_id := none
      build_status := none
      build_message := none
      created_at := now
      updated_at := now }
  ({ s with jobs := s.jobs ++ [job], nextJobId := s.nextJobId + 1 }, job)

/-- The rows of job_events belonging to one job (the WHERE clause of
getJobEvents in src/db/queries.ts), in insertion order. -/
def jobEventsOf (s : Store) (jobId : Nat) : List JobEvent :=
  s.events.filter (fun e => decide (e.job_id = jobId))

/-- Comparison used by ORDER BY created_at on job_events. -/
def eventLE (a b : JobEvent) : Prop :=
  a.created_at ≤ b.created_at

instance : DecidableRel eventLE := fun a b =>
  inferInstanceAs (Decidable (a.created_at ≤ b.created_at))

instance : IsTotal JobEvent eventLE :=
  ⟨fun a b => Nat.le_total a.created_at b.created_at⟩

instance : IsTrans JobEvent eventLE :=
  ⟨fun _ _ _ hab hbc => Nat.le_trans hab hbc⟩

/-- getJobEvents from src/db/queries.ts: SELECT * FROM job_events WHERE
job_id = $1 ORDER BY created_at. ORDER BY sorts on created_at alone;
PostgreSQL leaves the relative order of rows with equal keys unspecified,
so the query denotes a relation: out is any permutation of the filtered
rows that is sorted by created_at. -/
def getJobEventsRel (s : Store) (jobId : Nat) (out : List JobEvent) : Prop :=
  (jobEventsOf s jobId).Perm out ∧ out.Sorted eventLE

/-- One concrete result admitted by getJobEventsRel, used to show the
relation is total. -/
def sortEventsByCreatedAt (l : List JobEvent) : List JobEvent :=
  l.insertionSort eventLE

/-- Modelled from the spec: the ordering property claimed of the events
array — non-decreasing created_at, ties broken stably by event id. -/
def specOrderedByCreatedAtThenId (l : List JobEvent) : Prop :=
  l.Sorted (fun a b =>
    a.created_at < b.created_at ∨ (a.created_at = b.created_at ∧ a.id ≤ b.id))

/-- EVENT_STATUS_MAP from src/webhook/notifier.ts, in source order: the
fixed table mapping internal event names to (build_status, message). -/
def EVENT_STATUS_MAP : List (String × BuildStatus × String) :=
  [ ("worker_launched", (BuildStatus.queued, "Worker launched")),
    ("worker_started", (BuildStatus.queued, "Build starting...")),
    ("repo_cloned", (BuildStatus.cloning, "Repository cloned")),
    ("prd_parsed", (BuildStatus.building, "PRD parsed, planning build...")),
    ("orchestrator_started", (BuildStatus.building, "Building application...")),
    ("orchestrator_complete", (BuildStatus.building, "Build complete, preparing for deployment...")),
    ("deploy_started", (BuildStatus.deploying, "Starting deployment...")),
    ("neon_provisioning", (BuildStatus.deploying, "Provisioning database...")),
    ("schema_migrating", (BuildStatus.deploying, "Running database migrations...")),
    ("readiness_check", (BuildStatus.deploying, "Checking deployment readiness...")),
    ("readiness_passed", (BuildStatus.deploying, "Deployment readiness check passed")),
    ("readiness_fixing", (BuildStatus.deploying, "Fixing build issues before deployment...")),
    ("readiness_failed", (BuildStatus.error, "Deployment readiness check failed")),
    ("flyio_deploying", (BuildStatus.deploying, "Deploying to Fly.io...")),
    ("deploy_verifying", (BuildStatus.deploying, "Verifying deployment...")),
    ("deployed", (BuildStatus.deployed, "Deployed successfully")),
    ("completed", (BuildStatus.deployed, "Build completed successfully")),
    ("build_complete", (BuildStatus.deployed, "Build completed successfully")),
    ("build_failed", (BuildStatus.failed, "Build failed")),
    ("failed", (BuildStatus.failed, "Build failed")),
    ("launch_failed", (BuildStatus.error, "Failed to launch build worker")),
    ("pr_created", (BuildStatus.building, "Pull request created")) ]

/-- Key lookup in EVENT_STATUS_MAP. -/
def lookupEventStatus (event : String) : Option (BuildStatus × String) :=
  EVENT_STATUS_MAP.lookup event

/-- Modelled from the spec: the canonical 19-entry event table of section
4.3 of the specification, used to compare the implemented table against the
contract. -/
def specSection43Table : List (String × BuildStatus × String) :=
  [ ("worker_launched", (BuildStatus.queued, "Worker launched")),
    ("worker_started", (BuildStatus.queued, "Build starting...")),
    ("repo_cloned", (BuildStatus.cloning, "Repository cloned")),
    ("prd_parsed", (BuildStatus.building, "PRD parsed, planning build...")),
    ("orchestrator_started", (BuildStatus.building, "Building application...")),
    ("orchestrator_complete", (BuildStatus.building, "Build complete, preparing for deployment...")),
    ("deploy_started", (BuildStatus.deploying, "Starting deployment...")),
    ("readiness_check", (BuildStatus.deploying, "Checking deployment readiness...")),
    ("readiness_passed", (BuildStatus.deploying, "Deployment readiness check passed")),
    ("readiness_fixing", (BuildStatus.deploying, "Fixing build issues before deployment...")),
    ("readiness_failed", (BuildStatus.error, "Deployment readiness check failed")),
    ("deploy_verifying", (BuildStatus.deploying, "Verifying deployment...")),
    ("deployed", (BuildStatus.deployed, "Deployed successfully")),
    ("completed", (BuildStatus.deployed, "Build completed successfully")),
    ("build_complete", (BuildStatus.deployed, "Build completed successfully")),
    ("pr_created", (BuildStatus.building, "Pull request created")),
    ("build_failed", (BuildStatus.failed, "Build failed")),
    ("failed", (BuildStatus.failed, "Build failed")),
    ("launch_failed", (BuildStatus.error, "Failed to launch build worker")) ]

/-- Outbound HTTP calls recorded by the handlers: the per-job callback post
of the events route and the downstream notifier post of sendBuildEvent
(delivery of either is fire-and-forget). -/
inductive Effect where
  | callbackPost (url : String) (jobId : Nat) (event : String) (detail : Option Detail)
  | notifierPost (jobId : Nat) (status : BuildStatus) (message : String)
deriving DecidableEq, Repr

/-- Message resolution in forwardEventToMillionScopes: the detail message
when truthy, else the default from the table. -/
def resolveMessage (detail : Option Detail) (defMsg : String) : String :=
  match detail.bind (fun d => d.message) with
  | some m => if m = "" then defMsg else m
  | none => defMsg

/-- forwardEventToMillionScopes from src/webhook/notifier.ts: look up the
event in EVENT_STATUS_MAP; if absent return with no effect; otherwise write
build_status and build_message through the store and post the payload to
the downstream notifier (recorded as a notifierPost effect). -/
def forwardEventToMillionScopes (s : Store) (jobId : Nat) (event : String) (detail : Option Detail) (now : Nat) : Store × List Effect :=
  match lookupEventStatus event with
  | none => (s, [])
  | some (status, defMsg) =>
    let message := resolveMessage detail defMsg
    (updateBuildStatus s jobId status message now, [Effect.notifierPost jobId status message])

/-- Body of POST /jobs/:id/events after structural JSON parsing. -/
structure EventBody where
  event : String
  detail : Option Detail
deriving DecidableEq, Repr

/-- A request to POST /jobs/:id/events: the Authorization header, the path
id, and the body (none when the body is not an object of the right shape). -/
structure EventRequest where
  auth : Option String
  jobId : Nat
  body : Option EventBody
deriving DecidableEq, Repr

/-- The zod validation of the events route: event must be a string of
length at least one; detail is an optional object. -/
def validEventBody : Option EventBody → Option EventBody
  | some b => if b.event = "" then none else some b
  | none => none

/-- Outcome of POST /jobs/:id/events: the HTTP status plus, on 201, the
resulting store and the recorded outbound calls. -/
inductive IngestResult where
  | unauthorized
  | notFound
  | badRequest
  | ok (s : Store) (effects : List Effect)
deriving DecidableEq, Repr

/-- The POST /jobs/:id/events handler from src/routes/status.ts, in source
order: bearer check, job lookup, body validation, appendEvent, bump of
updated_at via updateJobStatus with the unchanged status, fact extraction
for pr_created and deployed, terminal status updates, and the per-job
callback post. The handler never calls forwardEventToMillionScopes. -/
def postJobEvents (s : Store) (secret : String) (req : EventRequest) (now : Nat) : IngestResult :=
  if req.auth ≠ some ("Bearer " ++ secret) then IngestResult.unauthorized
  else
    match getJob s req.jobId with
    | none => IngestResult.notFound
    | some job =>
      match validEventBody req.body with
      | none => IngestResult.badRequest
      | some b =>
        let s1 := addJobEvent s job.id b.event b.detail now
        let s2 := updateJobStatus s1 job.id job.status none now
        let s3 :=
          if b.event = "pr_created" ∧ truthy (b.detail.bind (fun d => d.pr_url)) then
            setPrUrl s2 job.id (b.detail.bind (fun d => d.pr_url))
          else s2
        let s4 :=
          if b.event = "deployed" ∧ truthy (b.detail.bind (fun d => d.live_url)) then
            setDeployedFacts s3 job.id (b.detail.bind (fun d => d.live_url))
              (orNull (b.detail.bind (fun d => d.netlify_site_id)))
              (orNull (b.detail.bind (fun d => d.neon_project_id)))
          else s3
        let s5 :=
          if b.event = "failed" ∨ b.event = "build_failed" then
            updateJobStatus s4 job.id JobStatus.failed none now
          else s4
        let s6 :=
          if b.event = "completed" ∨ b.event = "build_complete" then
            updateJobStatus s5 job.id JobStatus.completed none now
          else s5
        let effects :=
          if truthy job.callback_url then
            [Effect.callbackPost (job.callback_url.getD "") job.id b.event b.detail]
          else []
        IngestResult.ok s6 effects

/-- Body of POST /webhook after zod validation: all defaults applied
(branch "main", prd_path "docs/PRD.md", mode "full-build"); repo_url is a
URL containing github.com. -/
structure WebhookBody where
  repo_url : String
  branch : String
  prd_path : String
  mode : String
  metadata : Option String
  callback_url : Option String
deriving DecidableEq, Repr

/-- Outcome of POST /webhook: 401, 400, 200 with the deduplicated job and
the untouched store, or 201 with the new job id, the updated store and the
recorded notifier post. -/
inductive WebhookResult where
  | unauthorized
  | badRequest
  | dedup (jobId : Nat) (status : JobStatus) (s : Store)
  | created (jobId : Nat) (s : Store) (effects : List Effect)
deriving DecidableEq, Repr

/-- The POST /webhook handler from src/routes/webhook.ts: bearer check,
body validation, dedup via findExistingJob, else createJob followed by a
fire-and-forget sendBuildEvent with status queued. -/
def postWebhook (s : Store) (secret : String) (auth : Option String) (body : Option WebhookBody) (now : Nat) : WebhookResult :=
  if auth ≠ some ("Bearer " ++ secret) then WebhookResult.unauthorized
  else
    match body with
    | none => WebhookResult.badRequest
    | some data =>
      match findExistingJob s data.repo_url data.branch with
      | some existing => WebhookResult.dedup existing.id existing.status s
      | none =>
        let r := createJob s
          { repo_url := data.repo_url
            branch := data.branch
            prd_path := data.prd_path
            mode := some data.mode
            metadata := data.metadata
            callback_url := data.callback_url } now
        WebhookResult.created r.2.id r.1 [Effect.notifierPost r.2.id BuildStatus.queued "Build queued"]

/-- MAX_CONCURRENT_JOBS from src/queue/processor.ts. -/
def MAX_CONCURRENT_JOBS : Nat := 5

/-- One dispatcher tick: processNext from src/queue/processor.ts. The
launch of the external worker is a parameter returning either an execution
id or an error message (launchWorker either resolves or throws). -/
def processNext (s : Store) (launch : Job → Except String String) (now : Nat) : Store :=
  if MAX_CONCURRENT_JOBS ≤ countRunningJobs s then s
  else
    match getNextPendingJob s with
    | none => s
    | some job =>
      let s1 := updateJobStatus s job.id JobStatus.running none now
      match launch job with
      | Except.ok executionId =>
        let s2 := updateJobStatus s1 job.id JobStatus.running (some executionId) now
        addJobEvent s2 job.id "worker_launched" (some { execution_id := some executionId }) now
      | Except.error msg =>
        let s2 := updateJobStatus s1 job.id JobStatus.failed none now
        addJobEvent s2 job.id "launch_failed" (some { error := some msg }) now

/-- recoverStaleJobs from src/queue/processor.ts: one recovery tick calls
markStaleJobsFailed with a 30 minute threshold. -/
def recoverStaleJobs (s : Store) (now : Nat) : Store × Nat :=
  markStaleJobsFailed s 30 now

/-- A freshly created job used as concrete test data. -/
def sampleJob : Job :=
  { id := 0
    repo_url := "https://github.com/acme/app"
    branch := "main"
    prd_path := "docs/PRD.md"
    mode := "full-build"
    status := JobStatus.pending
    metadata := none
    callback_url := none
    cloud_run_execution_id := none
    pr_url := none
    live_url := none
    netlify_site_id := none
    neon_project_id := none
    build_status := none
    build_message := none
    created_at := 10
    updated_at := 10 }

/-- A store holding one pending job. -/
def pendingStore : Store :=
  { jobs := [sampleJob], events := [], nextJobId := 1, nextEventId := 0 }

/-- A store holding one completed job. -/
def completedStore : Store :=
  { jobs := [{ sampleJob with status := JobStatus.completed }], events := [], nextJobId := 1, nextEventId := 0 }

/-- A store holding one running job last touched at time 10. -/
def staleStore : Store :=
  { jobs := [{ sampleJob with status := JobStatus.running }], events := [], nextJobId := 1, nextEventId := 0 }

/-- The empty store. -/
def emptyStore : Store :=
  { jobs := [], events := [], nextJobId := 0, nextEventId := 0 }

/-- A launch function that always succeeds with a fixed execution id. -/
def launchOk : Job → Except String String := fun _ => Except.ok "exec-1"

/-- A launch function that always fails with a fixed error message. -/
def launchFail : Job → Except String String := fun _ => Except.error "quota exceeded"

/-- Two events for the same job sharing one created_at value, ids 1 and 2. -/
def tieEventA : JobEvent :=
  { id := 1, job_id := 0, event := "worker_started", detail := none, created_at := 5 }

/-- Second event of the tie pair. -/
def tieEventB : JobEvent :=
  { id := 2, job_id := 0, event := "repo_cloned", detail := none, created_at := 5 }

/-- A store whose event log holds the two tied events in id order. -/
def tieStore : Store :=
  { jobs := [sampleJob], events := [tieEventA, tieEventB], nextJobId := 1, nextEventId := 3 }

/-- A result list for the tied events with the ids out of order. -/
def tieOut : List JobEvent := [tieEventB, tieEventA]

/-- An authorized events request posting a failed event for job 0. -/
def evReqFailed : EventRequest :=
  { auth := some "Bearer s3cret", jobId := 0, body := some { event := "failed", detail := none } }

/-- An authorized events request posting a repo_cloned event for job 0. -/
def evReqRepoCloned : EventRequest :=
  { auth := some "Bearer s3cret", jobId := 0, body := some { event := "repo_cloned", detail := none } }

/-- An authorized events request posting a worker_started event for job 0. -/
def evReqBenign : EventRequest :=
  { auth := some "Bearer s3cret", jobId := 0, body := some { event := "worker_started", detail := none } }

/-- An events request with no Authorization header. -/
def evReqNoAuth : EventRequest :=
  { auth := none, jobId := 0, body := some { event := "worker_started", detail := none } }

/-- An authorized events request whose body fails validation (empty event). -/
def evReqBadBody : EventRequest :=
  { auth := some "Bearer s3cret", jobId := 0, body := some { event := "", detail := none } }

/-- A validated webhook body matching sampleJob (repo and branch). -/
def webhookBodyMain : WebhookBody :=
  { repo_url := "https://github.com/acme/app", branch := "main", prd_path := "docs/PRD.md",
    mode := "full-build", metadata := none, callback_url := none }

/-- Observer: the parent job record after a successful ingest, if any. -/
def jobAfterIngest (s : Store) (secret : String) (req : EventRequest) (now : Nat) : Option Job :=
  match postJobEvents s secret req now with
  | IngestResult.ok s2 _ => getJob s2 req.jobId
  | _ => none

/-- Observer: the outbound calls recorded by a successful ingest, if any. -/
def effectsOfIngest (s : Store) (secret : String) (req : EventRequest) (now : Nat) : Option (List Effect) :=
  match postJobEvents s secret req now with
  | IngestResult.ok _ effects => some effects
  | _ => none

/-- Observer: whether an ingest outcome is the 201 success case. -/
def ingestOk : IngestResult → Bool
  | IngestResult.ok _ _ => true
  | _ => false

theorem updateWhere_events (s : Store) (id : Nat) (g : Job → Job) :
    (updateWhere s id g).events = s.events := rfl

theorem updateWhere_nextEventId (s : Store) (id : Nat) (g : Job → Job) :
    (updateWhere s id g).nextEventId = s.nextEventId := rfl

theorem applyStatus_id (st : JobStatus) (e : Option String) (now : Nat) (j : Job) :
    (applyStatus st e now j).id = j.id := by
  unfold applyStatus
  split <;> rfl

theorem applyStatus_status (st : JobStatus) (e : Option String) (now : Nat) (j : Job) :
    (applyStatus st e now j).status = st := by
  unfold applyStatus
  split <;> rfl

theorem applyStatus_updated_at (st : JobStatus) (e : Option String) (now : Nat) (j : Job) :
    (applyStatus st e now j).updated_at = now := by
  unfold applyStatus
  split <;> rfl

theorem find?_map_comm (l : List Job) (f : Job → Job) (p : Job → Bool)
    (hp : ∀ j, p (f j) = p j) :
    (l.map f).find? p = (l.find? p).map f := by
  induction l with
  | nil => rfl
  | cons x t ih =>
    simp only [List.map_cons, List.find?_cons, hp]
    cases hpx : p x
    · simpa [hpx] using ih
    · rfl

theorem getJob_updateWhere (s : Store) (id tid : Nat) (g : Job → Job)
    (hg : ∀ j, (g j).id = j.id) :
    getJob (updateWhere s id g) tid
      = (getJob s tid).map (fun j => if j.id = id then g j else j) := by
  unfold getJob updateWhere
  apply find?_map_comm
  intro j
  by_cases h : j.id = id
  · simp [h, hg]
  · simp [h]

theorem jobIds_updateWhere (s : Store) (id : Nat) (g : Job → Job)
    (hg : ∀ j, (g j).id = j.id) :
    (updateWhere s id g).jobs.map Job.id = s.jobs.map Job.id := by
  unfold updateWhere
  simp only [List.map_map]
  apply List.map_congr_left
  intro j _
  simp only [Function.comp_apply]
  by_cases h : j.id = id
  · simp [h, hg]
  · simp [h]

theorem map_update_eq_self (l : List Job) (id : Nat) (g : Job → Job)
    (h : ∀ y ∈ l, y.id ≠ id) :
    l.map (fun x => if x.id = id then g x else x) = l := by
  induction l with
  | nil => rfl
  | cons x t ih =>
    have hx : x.id ≠ id := h x (List.mem_cons_self x t)
    simp only [List.map_cons, if_neg hx]
    rw [ih (fun y hy => h y (List.mem_cons_of_mem _ hy))]

theorem countP_map_update (l : List Job) (id : Nat) (g : Job → Job) (j : Job) (p : Job → Bool)
    (hfind : l.find? (fun x => decide (x.id = id)) = some j)
    (hnd : (l.map Job.id).Nodup) :
    (l.map (fun x => if x.id = id then g x else x)).countP p + (if p j then 1 else 0)
      = l.countP p + (if p (g j) then 1 else 0) := by
  induction l with
  | nil => simp at hfind
  | cons x t ih =>
    rw [List.map_cons] at hnd
    have hnd' := List.nodup_cons.mp hnd
    by_cases hx : x.id = id
    · have hj : j = x := by
        rw [List.find?_cons_of_pos _ (by simp [hx])] at hfind
        exact (Option.some.inj hfind).symm
      subst hj
      have htail : ∀ y ∈ t, y.id ≠ id := by
        intro y hy he
        exact hnd'.1 (by rw [hx, ← he]; exact List.mem_map_of_mem Job.id hy)
      rw [List.map_cons, if_pos hx, map_update_eq_self t id g htail]
      simp only [List.countP_cons]
      by_cases h1 : p (g j) <;> by_cases h2 : p j <;> simp [h1, h2]
    · have hfind' : t.find? (fun x => decide (x.id = id)) = some j := by
        rw [List.find?_cons_of_neg _ (by simp [hx])] at hfind
        exact hfind
      have hrec := ih hfind' hnd'.2
      rw [List.map_cons, if_neg hx]
      simp only [List.countP_cons]
      omega

theorem find?_eq_of_mem_nodup (l : List Job) (j : Job) (hj : j ∈ l)
    (hnd : (l.map Job.id).Nodup) :
    l.find? (fun x => decide (x.id = j.id)) = some j := by
  induction l with
  | nil => cases hj
  | cons x t ih =>
    rw [List.map_cons] at hnd
    have hnd' := List.nodup_cons.mp hnd
    rcases List.mem_cons.mp hj with h | h
    · subst h
      exact List.find?_cons_of_pos _ (by simp)
    · have hx : ¬ (x.id = j.id) := by
        intro he
        exact hnd'.1 (he ▸ List.mem_map_of_mem Job.id h)
      rw [List.find?_cons_of_neg _ (by simp [hx])]
      exact ih h hnd'.2

theorem minByCreatedAt_mem : ∀ (l : List Job) (j : Job), minByCreatedAt l = some j → j ∈ l := by
  intro l
  induction l with
  | nil => intro j h; cases h
  | cons x t ih =>
    intro j h
    unfold minByCreatedAt at h
    cases hm : minByCreatedAt t with
    | none =>
      rw [hm] at h
      dsimp only at h
      cases h
      exact List.mem_cons_self x t
    | some m =>
      rw [hm] at h
      dsimp only at h
      by_cases hc : m.created_at < x.created_at
      · rw [if_pos hc] at h
        cases h
        exact List.mem_cons_of_mem x (ih _ hm)
      · rw [if_neg hc] at h
        cases h
        exact List.mem_cons_self x t

theorem minByCreatedAt_cons (x : Job) (t : List Job) :
    ∃ j, minByCreatedAt (x :: t) = some j := by
  unfold minByCreatedAt
  cases minByCreatedAt t with
  | none => exact ⟨x, rfl⟩
  | some m =>
    by_cases h : m.created_at < x.created_at
    · exact ⟨m, by simp [h]⟩
    · exact ⟨x, by simp [h]⟩

theorem maxByCreatedAt_mem : ∀ (l : List Job) (j : Job), maxByCreatedAt l = some j → j ∈ l := by
  intro l
  induction l with
  | nil => intro j h; cases h
  | cons x t ih =>
    intro j h
    unfold maxByCreatedAt at h
    cases hm : maxByCreatedAt t with
    | none =>
      rw [hm] at h
      dsimp only at h
      cases h
      exact List.mem_cons_self x t
    | some m =>
      rw [hm] at h
      dsimp only at h
      by_cases hc : x.created_at < m.created_at
      · rw [if_pos hc] at h
        cases h
        exact List.mem_cons_of_mem x (ih _ hm)
      · rw [if_neg hc] at h
        cases h
        exact List.mem_cons_self x t

theorem maxByCreatedAt_cons (x : Job) (t : List Job) :
    ∃ j, maxByCreatedAt (x :: t) = some j := by
  unfold maxByCreatedAt
  cases maxByCreatedAt t with
  | none => exact ⟨x, rfl⟩
  | some m =>
    by_cases h : x.created_at < m.created_at
    · exact ⟨m, by simp [h]⟩
    · exact ⟨x, by simp [h]⟩

theorem getJob_updateWhere_self (s : Store) (id : Nat) (g : Job → Job)
    (hg : ∀ j, (g j).id = j.id) (j : Job) (h : getJob s id = some j) :
    getJob (updateWhere s id g) id = some (g j) := by
  have hid : j.id = id := by
    unfold getJob at h
    have := List.find?_some h
    simpa using this
  rw [getJob_updateWhere s id id g hg, h]
  simp [hid]

theorem countRunning_updateWhere (s : Store) (id : Nat) (g : Job → Job) (j : Job)
    (hfind : getJob s id = some j) (hnd : (s.jobs.map Job.id).Nodup) :
    countRunningJobs (updateWhere s id g) + (if j.status = JobStatus.running then 1 else 0)
      = countRunningJobs s + (if (g j).status = JobStatus.running then 1 else 0) := by
  unfold getJob at hfind
  have h := countP_map_update s.jobs id g j
    (fun x => decide (x.status = JobStatus.running)) hfind hnd
  unfold countRunningJobs updateWhere
  simpa using h

/-- C1 (code_bug evaluation): the claim says claimNextPending atomically
transitions the selected job to running in one store round trip and
returns it with status running; on a store holding one pending job,
getNextPendingJob — a bare SELECT with no accompanying UPDATE — returns
the job with status still pending, and the running transition is issued
by processNext in a separate later round trip. -/
theorem claim_C1_eval :
    getNextPendingJob pendingStore = some sampleJob ∧
    sampleJob.status = JobStatus.pending ∧
    sampleJob.status ≠ JobStatus.running := by
  refine ⟨by decide, rfl, by decide⟩

/-- C7 counterexample: the implemented notifier table is not exactly the
19 canonical events of the section 4.3 table — it has 22 entries and
contains neon_provisioning, which the canonical table lacks. -/
theorem claim_C7_counterexample :
    lookupEventStatus "neon_provisioning" = some (BuildStatus.deploying, "Provisioning database...") ∧
    specSection43Table.lookup "neon_provisioning" = none ∧
    EVENT_STATUS_MAP.length = 22 ∧
    specSection43Table.length = 19 := by
  refine ⟨by decide, by decide, rfl, rfl⟩

/-- C7 amended: the notifier table contains every canonical event of the
section 4.3 table mapped exactly to the listed pair; its only entries
beyond those are neon_provisioning, schema_migrating and flyio_deploying;
and for any event not in the table, forwardEventToMillionScopes returns
the store unchanged with no build-status write and no downstream post. -/
theorem claim_C7_amended :
    (∀ p ∈ specSection43Table, lookupEventStatus p.1 = some p.2) ∧
    (∀ p ∈ EVENT_STATUS_MAP,
      (specSection43Table.lookup p.1).isSome = true ∨
        p.1 ∈ (["neon_provisioning", "schema_migrating", "flyio_deploying"] : List String)) ∧
    (∀ s jobId event detail now, lookupEventStatus event = none →
      forwardEventToMillionScopes s jobId event detail now = (s, [])) := by
  refine ⟨by decide, by decide, ?_⟩
  intro s jobId event detail now h
  unfold forwardEventToMillionScopes
  rw [h]

/-- C7 witness: the amended theorem evaluated at a concrete canonical
event and at a concrete unknown event. -/
theorem claim_C7_witness :
    lookupEventStatus "worker_started" = some (BuildStatus.queued, "Build starting...") ∧
    forwardEventToMillionScopes emptyStore 0 "totally_unknown" none 0 = (emptyStore, []) := by
  constructor
  · exact claim_C7_amended.1 ("worker_started", (BuildStatus.queued, "Build starting...")) (by decide)
  · exact claim_C7_amended.2.2 emptyStore 0 "totally_unknown" none 0 (by decide)

/-- C6: markStaleJobsFailed with threshold M transitions exactly the jobs
that are running with updated_at older than M minutes to failed, returns
the number of such jobs, leaves the event log untouched, and afterwards no
job is both running and past the threshold. -/
theorem claim_C6 (s : Store) (M now : Nat) :
    ((markStaleJobsFailed s M now).2
        = s.jobs.countP (fun j => decide (j.status = JobStatus.running ∧ j.updated_at + M < now))) ∧
    ((markStaleJobsFailed s M now).1.events = s.events) ∧
    (∀ j ∈ s.jobs, j.status = JobStatus.running → j.updated_at + M < now →
      { j with status := JobStatus.failed, updated_at := now } ∈ (markStaleJobsFailed s M now).1.jobs) ∧
    (∀ j ∈ s.jobs, ¬ (j.status = JobStatus.running ∧ j.updated_at + M < now) →
      j ∈ (markStaleJobsFailed s M now).1.jobs) ∧
    (∀ j ∈ (markStaleJobsFailed s M now).1.jobs,
      ¬ (j.status = JobStatus.running ∧ j.updated_at + M < now)) := by
  refine ⟨rfl, rfl, ?_, ?_, ?_⟩
  · intro j hj h1 h2
    unfold markStaleJobsFailed
    exact List.mem_map.mpr ⟨j, hj, by simp [isStale, h1, h2]⟩
  · intro j hj h
    unfold markStaleJobsFailed
    exact List.mem_map.mpr ⟨j, hj, by simp [isStale, h]⟩
  · intro j hj
    unfold markStaleJobsFailed at hj
    rcases List.mem_map.mp hj with ⟨x, _, he⟩
    by_cases hx : isStale M now x = true
    · rw [if_pos hx] at he
      rw [← he]
      simp
    · rw [if_neg hx] at he
      rw [← he]
      unfold isStale at hx
      simpa using hx

/-- C6 witness: the theorem evaluated on a store holding one running job
last touched at time 10, swept with threshold 30 at time 100. -/
theorem claim_C6_witness :
    (markStaleJobsFailed staleStore 30 100).2 = 1 ∧
    (markStaleJobsFailed staleStore 30 100).1.events = [] ∧
    { sampleJob with status := JobStatus.failed, updated_at := 100 }
      ∈ (markStaleJobsFailed staleStore 30 100).1.jobs := by
  refine ⟨?_, (claim_C6 staleStore 30 100).2.1, ?_⟩
  · rw [(claim_C6 staleStore 30 100).1]
    decide
  · exact (claim_C6 staleStore 30 100).2.2.1 { sampleJob with status := JobStatus.running }
      (by decide) rfl (by decide)

/-- C3 counterexample: a job already completed receives a failed event;
the terminal-event branch of the ingest overwrites the terminal status
with failed, so completed is not absorbing. -/
theorem claim_C3_counterexample :
    (getJob completedStore 0).map Job.status = some JobStatus.completed ∧
    (jobAfterIngest completedStore "s3cret" evReqFailed 20).map Job.status = some JobStatus.failed := by
  exact ⟨by decide, by decide⟩

/-- C3 amended: the stale sweep never touches a job whose status is not
running, so the sweep in particular never leaves a terminal state; but
updateJobStatus applies the requested status unconditionally — there is no
guard refusing transitions out of completed or failed — and the
terminal-event branches of event ingest can therefore overwrite a terminal
status. -/
theorem claim_C3_amended :
    (∀ s M now id j, getJob s id = some j → j.status ≠ JobStatus.running →
      getJob (markStaleJobsFailed s M now).1 id = some j) ∧
    (∀ s id st e now j, getJob s id = some j →
      ∃ j2, getJob (updateJobStatus s id st e now) id = some j2 ∧ j2.status = st) := by
  constructor
  · intro s M now id j hj hs
    unfold getJob markStaleJobsFailed
    unfold getJob at hj
    rw [find?_map_comm _ _ _ (fun x => by
      by_cases hx : isStale M now x = true
      · simp [if_pos hx]
      · simp [if_neg hx])]
    rw [hj]
    have : isStale M now j = false := by
      unfold isStale
      simp
      intro hr
      exact absurd hr hs
    simp [this]
  · intro s id st e now j hj
    refine ⟨applyStatus st e now j, ?_, applyStatus_status st e now j⟩
    exact getJob_updateWhere_self s id (applyStatus st e now)
      (applyStatus_id st e now) j hj

/-- C3 amended witness: the sweep leaves a completed job untouched, and
updateJobStatus writes failed over completed. -/
theorem claim_C3_amended_witness :
    getJob (markStaleJobsFailed completedStore 30 100).1 0
      = some { sampleJob with status := JobStatus.completed } ∧
    ∃ j2, getJob (updateJobStatus completedStore 0 JobStatus.failed none 20) 0 = some j2 ∧
      j2.status = JobStatus.failed := by
  constructor
  · exact claim_C3_amended.1 completedStore 30 100 0
      { sampleJob with status := JobStatus.completed } (by decide) (by decide)
  · exact claim_C3_amended.2 completedStore 0 JobStatus.failed none 20
      { sampleJob with status := JobStatus.completed } (by decide)

/-- C9 counterexample: ORDER BY created_at constrains created_at alone, so
tieOut — the two tied events with ids 2 then 1 — is a legitimate result of
getJobEvents on tieStore, yet it is not ordered with created_at ties
broken by event id. -/
theorem claim_C9_counterexample :
    getJobEventsRel tieStore 0 tieOut ∧ ¬ specOrderedByCreatedAtThenId tieOut := by
  constructor
  · exact ⟨by decide, by decide⟩
  · intro h
    have := List.rel_of_sorted_cons h tieEventA (by decide)
    rcases this with h1 | h2
    · exact absurd h1 (by decide)
    · exact absurd h2.2 (by decide)

/-- C9 amended: the relation denoting getJobEvents always admits a result,
and every result it admits lists the job events in non-decreasing
created_at order; the relative order of events with equal created_at is
left unspecified by the query. -/
theorem claim_C9_amended (s : Store) (jobId : Nat) :
    (∃ out, getJobEventsRel s jobId out) ∧
    (∀ out, getJobEventsRel s jobId out → out.Sorted eventLE) := by
  constructor
  · exact ⟨sortEventsByCreatedAt (jobEventsOf s jobId),
      (List.perm_insertionSort eventLE (jobEventsOf s jobId)).symm,
      List.sorted_insertionSort eventLE (jobEventsOf s jobId)⟩
  · intro out h
    exact h.2

/-- C9 amended witness: the theorem evaluated on the concrete tied store
and the concrete result tieOut. -/
theorem claim_C9_amended_witness : tieOut.Sorted eventLE :=
  (claim_C9_amended tieStore 0).2 tieOut ⟨by decide, by decide⟩

/-- C5: under a valid bearer and a validated body, when an active (pending
or running) job exists for the same repo_url and branch the webhook
answers 200 with that job id, deduplicated, leaving the store unchanged;
otherwise it creates a new job with status pending and answers 201 with
its id. -/
theorem claim_C5 (s : Store) (secret : String) (data : WebhookBody) (now : Nat) :
    ((∃ j ∈ s.jobs, j.repo_url = data.repo_url ∧ j.branch = data.branch ∧
        (j.status = JobStatus.pending ∨ j.status = JobStatus.running)) →
      ∃ e, findExistingJob s data.repo_url data.branch = some e ∧
        e ∈ s.jobs ∧ e.repo_url = data.repo_url ∧ e.branch = data.branch ∧
        (e.status = JobStatus.pending ∨ e.status = JobStatus.running) ∧
        postWebhook s secret (some ("Bearer " ++ secret)) (some data) now
          = WebhookResult.dedup e.id e.status s) ∧
    ((¬ ∃ j ∈ s.jobs, j.repo_url = data.repo_url ∧ j.branch = data.branch ∧
        (j.status = JobStatus.pending ∨ j.status = JobStatus.running)) →
      ∃ job s2, postWebhook s secret (some ("Bearer " ++ secret)) (some data) now
          = WebhookResult.created job.id s2
              [Effect.notifierPost job.id BuildStatus.queued "Build queued"] ∧
        job.status = JobStatus.pending ∧ job.id = s.nextJobId ∧
        job.repo_url = data.repo_url ∧ job.branch = data.branch ∧
        s2.jobs = s.jobs ++ [job] ∧ s2.events = s.events) := by
  constructor
  · rintro ⟨j, hj, hrepo, hbranch, hstatus⟩
    have hjf : j ∈ s.jobs.filter (fun x =>
        decide (x.repo_url = data.repo_url ∧ x.branch = data.branch ∧
          (x.status = JobStatus.pending ∨ x.status = JobStatus.running))) := by
      rw [List.mem_filter]
      exact ⟨hj, by simp [hrepo, hbranch, hstatus]⟩
    obtain ⟨e, he⟩ : ∃ e, findExistingJob s data.repo_url data.branch = some e := by
      unfold findExistingJob
      cases hc : s.jobs.filter (fun x =>
          decide (x.repo_url = data.repo_url ∧ x.branch = data.branch ∧
            (x.status = JobStatus.pending ∨ x.status = JobStatus.running))) with
      | nil => rw [hc] at hjf; cases hjf
      | cons y t => exact maxByCreatedAt_cons y t
    have hemem := maxByCreatedAt_mem _ e he
    rw [List.mem_filter] at hemem
    have heprops := of_decide_eq_true hemem.2
    refine ⟨e, he, hemem.1, heprops.1, heprops.2.1, heprops.2.2, ?_⟩
    unfold postWebhook
    rw [if_neg (by simp)]
    dsimp only
    rw [he]
  · intro hno
    have hfe : s.jobs.filter (fun x =>
        decide (x.repo_url = data.repo_url ∧ x.branch = data.branch ∧
          (x.status = JobStatus.pending ∨ x.status = JobStatus.running))) = [] := by
      cases hc : s.jobs.filter (fun x =>
          decide (x.repo_url = data.repo_url ∧ x.branch = data.branch ∧
            (x.status = JobStatus.pending ∨ x.status = JobStatus.running))) with
      | nil => rfl
      | cons y t =>
        exfalso
        have hy : y ∈ s.jobs.filter (fun x =>
            decide (x.repo_url = data.repo_url ∧ x.branch = data.branch ∧
              (x.status = JobStatus.pending ∨ x.status = JobStatus.running))) := by
          rw [hc]; exact List.mem_cons_self y t
        rw [List.mem_filter] at hy
        have hyp := of_decide_eq_true hy.2
        exact hno ⟨y, hy.1, hyp⟩
    have hnone : findExistingJob s data.repo_url data.branch = none := by
      unfold findExistingJob
      rw [hfe]
      rfl
    refine ⟨(createJob s
        { repo_url := data.repo_url, branch := data.branch, prd_path := data.prd_path,
          mode := some data.mode, metadata := data.metadata,
          callback_url := data.callback_url } now).2,
      (createJob s
        { repo_url := data.repo_url, branch := data.branch, prd_path := data.prd_path,
          mode := some data.mode, metadata := data.metadata,
          callback_url := data.callback_url } now).1, ?_, rfl, rfl, rfl, rfl, rfl, rfl⟩
    unfold postWebhook
    rw [if_neg (by simp)]
    dsimp only
    rw [hnone]

/-- C5 witness: both branches of the theorem evaluated concretely — dedup
against the store holding the matching pending job, creation against the
empty store. -/
theorem claim_C5_witness :
    (∃ e, findExistingJob pendingStore webhookBodyMain.repo_url webhookBodyMain.branch = some e ∧
      e ∈ pendingStore.jobs ∧ e.repo_url = webhookBodyMain.repo_url ∧
      e.branch = webhookBodyMain.branch ∧
      (e.status = JobStatus.pending ∨ e.status = JobStatus.running) ∧
      postWebhook pendingStore "s3cret" (some ("Bearer " ++ "s3cret")) (some webhookBodyMain) 20
        = WebhookResult.dedup e.id e.status pendingStore) ∧
    (∃ job s2, postWebhook emptyStore "s3cret" (some ("Bearer " ++ "s3cret")) (some webhookBodyMain) 20
        = WebhookResult.created job.id s2
            [Effect.notifierPost job.id BuildStatus.queued "Build queued"] ∧
      job.status = JobStatus.pending ∧ job.id = emptyStore.nextJobId ∧
      job.repo_url = webhookBodyMain.repo_url ∧ job.branch = webhookBodyMain.branch ∧
      s2.jobs = emptyStore.jobs ++ [job] ∧ s2.events = emptyStore.events) := by
  constructor
  · exact (claim_C5 pendingStore "s3cret" webhookBodyMain 20).1
      ⟨sampleJob, by decide, by decide, by decide, Or.inl rfl⟩
  · exact (claim_C5 emptyStore "s3cret" webhookBodyMain 20).2 (by decide)

/-- C10: the events endpoint checks authorization first, then job
existence, then body validity: a wrong or missing bearer yields 401
whatever the id and body; an authorized request for a missing job yields
404 even when the body is invalid; and 400 occurs only when the request is
authorized, the job exists and the body is invalid. -/
theorem claim_C10 (s : Store) (secret : String) (req : EventRequest) (now : Nat) :
    (req.auth ≠ some ("Bearer " ++ secret) →
      postJobEvents s secret req now = IngestResult.unauthorized) ∧
    (req.auth = some ("Bearer " ++ secret) → getJob s req.jobId = none →
      postJobEvents s secret req now = IngestResult.notFound) ∧
    (postJobEvents s secret req now = IngestResult.badRequest →
      req.auth = some ("Bearer " ++ secret) ∧
      (∃ job, getJob s req.jobId = some job) ∧ validEventBody req.body = none) := by
  refine ⟨?_, ?_, ?_⟩
  · intro h
    unfold postJobEvents
    rw [if_pos h]
  · intro h hj
    unfold postJobEvents
    rw [if_neg (by simp [h])]
    rw [hj]
  · intro h
    by_cases ha : req.auth = some ("Bearer " ++ secret)
    · unfold postJobEvents at h
      rw [if_neg (by simp [ha])] at h
      cases hj : getJob s req.jobId with
      | none => rw [hj] at h; cases h
      | some job =>
        rw [hj] at h
        cases hb : validEventBody req.body with
        | none => exact ⟨ha, ⟨job, rfl⟩, rfl⟩
        | some b =>
          rw [hb] at h
          dsimp only at h
          cases h
    · unfold postJobEvents at h
      rw [if_pos ha] at h
      cases h

/-- C10 witness: the three implications of the theorem evaluated at
concrete requests — missing bearer, missing job, invalid body. -/
theorem claim_C10_witness :
    postJobEvents pendingStore "s3cret" evReqNoAuth 20 = IngestResult.unauthorized ∧
    postJobEvents emptyStore "s3cret" evReqFailed 20 = IngestResult.notFound ∧
    (evReqBadBody.auth = some ("Bearer " ++ "s3cret") ∧
      (∃ job, getJob pendingStore evReqBadBody.jobId = some job) ∧
      validEventBody evReqBadBody.body = none) := by
  refine ⟨?_, ?_, ?_⟩
  · exact (claim_C10 pendingStore "s3cret" evReqNoAuth 20).1 (by decide)
  · exact (claim_C10 emptyStore "s3cret" evReqFailed 20).2.1 (by decide) (by decide)
  · exact (claim_C10 pendingStore "s3cret" evReqBadBody 20).2.2 (by decide)

/-- C2 (code_bug evaluation): the claim says a successful POST of a
canonical event invokes forwardEventToMillionScopes, after which the job
build_status equals the mapped value; in the code the events route never
calls the notifier. Ingesting repo_cloned succeeds, records no outbound
call at all, and leaves build_status unset, while the table maps
repo_cloned to cloning. -/
theorem claim_C2_eval :
    lookupEventStatus "repo_cloned" = some (BuildStatus.cloning, "Repository cloned") ∧
    ingestOk (postJobEvents pendingStore "s3cret" evReqRepoCloned 20) = true ∧
    effectsOfIngest pendingStore "s3cret" evReqRepoCloned 20 = some [] ∧
    (jobAfterIngest pendingStore "s3cret" evReqRepoCloned 20).map Job.build_status = some none ∧
    (jobAfterIngest pendingStore "s3cret" evReqRepoCloned 20).map Job.build_status
      ≠ some (some BuildStatus.cloning) := by
  refine ⟨by decide, by decide, by decide, by decide, by decide⟩

theorem exists_getJob_pred_updateWhere (s : Store) (id tid : Nat) (g : Job → Job) (P : Job → Prop)
    (hg : ∀ j, (g j).id = j.id)
    (hP : ∀ j, P j → P (g j))
    (h : ∃ j, getJob s tid = some j ∧ P j) :
    ∃ j2, getJob (updateWhere s id g) tid = some j2 ∧ P j2 := by
  rcases h with ⟨j, hj, hPj⟩
  rw [getJob_updateWhere s id tid g hg, hj]
  by_cases hc : j.id = id
  · exact ⟨g j, by simp [hc], hP j hPj⟩
  · exact ⟨j, by simp [hc], hPj⟩

/-- C8: every successful POST /jobs/:id/events appends exactly one
JobEvent and sets the parent job updated_at to the ingest time, whether or
not status changes; for events outside the six specially handled ones
(pr_created, deployed, failed, build_failed, completed, build_complete)
the parent job record changes in no field other than updated_at. -/
theorem claim_C8 (s : Store) (secret : String) (req : EventRequest) (now : Nat)
    (job : Job) (b : EventBody)
    (hauth : req.auth = some ("Bearer " ++ secret))
    (hjob : getJob s req.jobId = some job)
    (hbody : validEventBody req.body = some b) :
    ∃ s2 effects, postJobEvents s secret req now = IngestResult.ok s2 effects ∧
      s2.events = s.events ++
        [{ id := s.nextEventId, job_id := job.id, event := b.event,
           detail := b.detail, created_at := now }] ∧
      (∃ j2, getJob s2 req.jobId = some j2 ∧ j2.updated_at = now) ∧
      (b.event ∉ (["pr_created", "deployed", "failed", "build_failed", "completed",
          "build_complete"] : List String) →
        getJob s2 req.jobId = some { job with updated_at := now }) := by
  have hid : job.id = req.jobId := by
    unfold getJob at hjob
    have := List.find?_some hjob
    simpa using this
  have hjob1 : getJob (addJobEvent s job.id b.event b.detail now) job.id = some job := by
    rw [hid]
    exact hjob
  have h2 : getJob (updateJobStatus (addJobEvent s job.id b.event b.detail now)
      job.id job.status none now) req.jobId = some { job with updated_at := now } := by
    rw [← hid]
    exact getJob_updateWhere_self _ job.id _ (applyStatus_id _ _ _) job hjob1
  unfold postJobEvents
  rw [if_neg (by simp [hauth])]
  rw [hjob]
  dsimp only
  rw [hbody]
  dsimp only
  refine ⟨_, _, rfl, ?_, ?_, ?_⟩
  · split_ifs <;> rfl
  · split_ifs <;>
      (repeat
        first
        | exact ⟨_, h2, rfl⟩
        | refine exists_getJob_pred_updateWhere _ _ _ _ _ (applyStatus_id _ _ _)
            (fun j _ => applyStatus_updated_at _ _ _ j) ?_
        | refine exists_getJob_pred_updateWhere _ _ _ _ _ (fun j => rfl) (fun j h => h) ?_)
  · intro hnotin
    have hc3 : ¬ (b.event = "pr_created" ∧ truthy (b.detail.bind (fun d => d.pr_url)) = true) := by
      rintro ⟨h1, _⟩
      exact hnotin (by simp [h1])
    have hc4 : ¬ (b.event = "deployed" ∧ truthy (b.detail.bind (fun d => d.live_url)) = true) := by
      rintro ⟨h1, _⟩
      exact hnotin (by simp [h1])
    have hc5 : ¬ (b.event = "failed" ∨ b.event = "build_failed") := by
      rintro (h1 | h1) <;> exact hnotin (by simp [h1])
    have hc6 : ¬ (b.event = "completed" ∨ b.event = "build_complete") := by
      rintro (h1 | h1) <;> exact hnotin (by simp [h1])
    rw [if_neg hc6, if_neg hc5, if_neg hc4, if_neg hc3]
    exact h2

/-- C8 witness: the theorem evaluated for a worker_started event against
the store holding one pending job. -/
theorem claim_C8_witness :
    ∃ s2 effects, postJobEvents pendingStore "s3cret" evReqBenign 20 = IngestResult.ok s2 effects ∧
      s2.events = [{ id := 0, job_id := 0, event := "worker_started", detail := none, created_at := 20 }] ∧
      getJob s2 0 = some { sampleJob with updated_at := 20 } := by
  obtain ⟨s2, effects, heq, hev, _, hframe⟩ :=
    claim_C8 pendingStore "s3cret" evReqBenign 20 sampleJob
      { event := "worker_started", detail := none } rfl rfl rfl
  exact ⟨s2, effects, heq, by simpa using hev, hframe (by decide)⟩

theorem getNextPendingJob_mem (s : Store) (j : Job) (h : getNextPendingJob s = some j) :
    j ∈ s.jobs ∧ j.status = JobStatus.pending := by
  unfold getNextPendingJob at h
  have hm := minByCreatedAt_mem _ _ h
  rw [List.mem_filter] at hm
  exact ⟨hm.1, of_decide_eq_true hm.2⟩

theorem jobIds_updateJobStatus (s : Store) (id : Nat) (st : JobStatus) (e : Option String) (now : Nat) :
    (updateJobStatus s id st e now).jobs.map Job.id = s.jobs.map Job.id :=
  jobIds_updateWhere s id _ (applyStatus_id st e now)

theorem getJob_updateJobStatus_self (s : Store) (id : Nat) (st : JobStatus) (e : Option String)
    (now : Nat) (j : Job) (h : getJob s id = some j) :
    getJob (updateJobStatus s id st e now) id = some (applyStatus st e now j) :=
  getJob_updateWhere_self s id _ (applyStatus_id st e now) j h

theorem countRunning_updateJobStatus (s : Store) (id : Nat) (st : JobStatus) (e : Option String)
    (now : Nat) (j : Job) (h : getJob s id = some j) (hnd : (s.jobs.map Job.id).Nodup) :
    countRunningJobs (updateJobStatus s id st e now)
        + (if j.status = JobStatus.running then 1 else 0)
      = countRunningJobs s + (if st = JobStatus.running then 1 else 0) := by
  have hh := countRunning_updateWhere s id (applyStatus st e now) j h hnd
  rw [applyStatus_status] at hh
  exact hh

theorem countRunning_addJobEvent (s : Store) (jobId : Nat) (event : String)
    (detail : Option Detail) (now : Nat) :
    countRunningJobs (addJobEvent s jobId event detail now) = countRunningJobs s := rfl

theorem getJob_addJobEvent (s : Store) (jobId : Nat) (event : String)
    (detail : Option Detail) (now : Nat) (id : Nat) :
    getJob (addJobEvent s jobId event detail now) id = getJob s id := rfl

theorem processNext_eq_of_ok (s : Store) (launch : Job → Except String String) (now : Nat)
    (job : Job) (e : String)
    (hc : countRunningJobs s < MAX_CONCURRENT_JOBS)
    (hp : getNextPendingJob s = some job)
    (hl : launch job = Except.ok e) :
    processNext s launch now
      = addJobEvent (updateJobStatus (updateJobStatus s job.id JobStatus.running none now)
          job.id JobStatus.running (some e) now)
          job.id "worker_launched" (some { execution_id := some e }) now := by
  unfold processNext
  rw [if_neg (by omega), hp]
  dsimp only
  rw [hl]

theorem processNext_eq_of_error (s : Store) (launch : Job → Except String String) (now : Nat)
    (job : Job) (msg : String)
    (hc : countRunningJobs s < MAX_CONCURRENT_JOBS)
    (hp : getNextPendingJob s = some job)
    (hl : launch job = Except.error msg) :
    processNext s launch now
      = addJobEvent (updateJobStatus (updateJobStatus s job.id JobStatus.running none now)
          job.id JobStatus.failed none now)
          job.id "launch_failed" (some { error := some msg }) now := by
  unfold processNext
  rw [if_neg (by omega), hp]
  dsimp only
  rw [hl]

/-- C4: one dispatcher tick, on a store with distinct job ids. When five
or more jobs are running the tick changes nothing; the tick never brings
the running count above the maximum of its previous value and five; when
a pending job is claimed and the launch succeeds the job is recorded
running with the execution id stored and a worker_launched event carrying
it; when the launch fails the job is recorded failed and a launch_failed
event carries the error message. -/
theorem claim_C4 (s : Store) (launch : Job → Except String String) (now : Nat)
    (hnd : (s.jobs.map Job.id).Nodup) :
    (MAX_CONCURRENT_JOBS ≤ countRunningJobs s → processNext s launch now = s) ∧
    countRunningJobs (processNext s launch now) ≤ max (countRunningJobs s) MAX_CONCURRENT_JOBS ∧
    (∀ job e, countRunningJobs s < MAX_CONCURRENT_JOBS →
      getNextPendingJob s = some job → launch job = Except.ok e → e ≠ "" →
      getJob (processNext s launch now) job.id
          = some { job with
                     status := JobStatus.running
                     cloud_run_execution_id := some e
                     updated_at := now } ∧
      (processNext s launch now).events
          = s.events ++
            [{ id := s.nextEventId, job_id := job.id, event := "worker_launched",
               detail := some { execution_id := some e }, created_at := now }]) ∧
    (∀ job msg, countRunningJobs s < MAX_CONCURRENT_JOBS →
      getNextPendingJob s = some job → launch job = Except.error msg →
      getJob (processNext s launch now) job.id
          = some { job with status := JobStatus.failed, updated_at := now } ∧
      (processNext s launch now).events
          = s.events ++
            [{ id := s.nextEventId, job_id := job.id, event := "launch_failed",
               detail := some { error := some msg }, created_at := now }]) := by
  refine ⟨?_, ?_, ?_, ?_⟩
  · intro h
    unfold processNext
    rw [if_pos h]
  · by_cases hc : MAX_CONCURRENT_JOBS ≤ countRunningJobs s
    · unfold processNext
      rw [if_pos hc]
      exact le_max_left _ _
    · push_neg at hc
      cases hp : getNextPendingJob s with
      | none =>
        unfold processNext
        rw [if_neg (by omega), hp]
        exact le_max_left _ _
      | some job =>
        obtain ⟨hmem, hpend⟩ := getNextPendingJob_mem s job hp
        have hfind : getJob s job.id = some job := find?_eq_of_mem_nodup s.jobs job hmem hnd
        have h1 := countRunning_updateJobStatus s job.id JobStatus.running none now job hfind hnd
        have hfind1 := getJob_updateJobStatus_self s job.id JobStatus.running none now job hfind
        have hnd1 : ((updateJobStatus s job.id JobStatus.running none now).jobs.map Job.id).Nodup := by
          rw [jobIds_updateJobStatus]
          exact hnd
        simp only [hpend] at h1
        cases hl : launch job with
        | ok e =>
          rw [processNext_eq_of_ok s launch now job e hc hp hl, countRunning_addJobEvent]
          have h2 := countRunning_updateJobStatus (updateJobStatus s job.id JobStatus.running none now)
            job.id JobStatus.running (some e) now _ hfind1 hnd1
          rw [applyStatus_status] at h2
          simp only at h1 h2
          have hle : countRunningJobs (updateJobStatus (updateJobStatus s job.id JobStatus.running none now)
              job.id JobStatus.running (some e) now) ≤ MAX_CONCURRENT_JOBS := by
            simp at h1 h2
            omega
          exact le_trans hle (le_max_right _ _)
        | error msg =>
          rw [processNext_eq_of_error s launch now job msg hc hp hl, countRunning_addJobEvent]
          have h2 := countRunning_updateJobStatus (updateJobStatus s job.id JobStatus.running none now)
            job.id JobStatus.failed none now _ hfind1 hnd1
          rw [applyStatus_status] at h2
          have hle : countRunningJobs (updateJobStatus (updateJobStatus s job.id JobStatus.running none now)
              job.id JobStatus.failed none now) ≤ countRunningJobs s := by
            simp at h1 h2
            omega
          exact le_trans hle (le_max_left _ _)
  · intro job e hc hp hl he
    obtain ⟨hmem, hpend⟩ := getNextPendingJob_mem s job hp
    have hfind : getJob s job.id = some job := find?_eq_of_mem_nodup s.jobs job hmem hnd
    have hfind1 := getJob_updateJobStatus_self s job.id JobStatus.running none now job hfind
    have hfind2 := getJob_updateJobStatus_self (updateJobStatus s job.id JobStatus.running none now)
      job.id JobStatus.running (some e) now _ hfind1
    rw [processNext_eq_of_ok s launch now job e hc hp hl]
    refine ⟨?_, rfl⟩
    rw [getJob_addJobEvent, hfind2]
    have htr : truthy (some e) = true := by simp [truthy, he]
    congr 1
    unfold applyStatus
    simp [htr, truthy]
    exact fun h => absurd h he
  · intro job msg hc hp hl
    obtain ⟨hmem, hpend⟩ := getNextPendingJob_mem s job hp
    have hfind : getJob s job.id = some job := find?_eq_of_mem_nodup s.jobs job hmem hnd
    have hfind1 := getJob_updateJobStatus_self s job.id JobStatus.running none now job hfind
    have hfind2 := getJob_updateJobStatus_self (updateJobStatus s job.id JobStatus.running none now)
      job.id JobStatus.failed none now _ hfind1
    rw [processNext_eq_of_error s launch now job msg hc hp hl]
    refine ⟨?_, rfl⟩
    rw [getJob_addJobEvent, hfind2]
    rfl

/-- C4 witness: the theorem evaluated on the store holding one pending
job, once with a launch that succeeds and once with a launch that fails. -/
theorem claim_C4_witness :
    countRunningJobs (processNext pendingStore launchOk 20)
        ≤ max (countRunningJobs pendingStore) MAX_CONCURRENT_JOBS ∧
    getJob (processNext pendingStore launchOk 20) 0
      = some { sampleJob with
                 status := JobStatus.running
                 cloud_run_execution_id := some "exec-1"
                 updated_at := 20 } ∧
    getJob (processNext pendingStore launchFail 20) 0
      = some { sampleJob with status := JobStatus.failed, updated_at := 20 } := by
  refine ⟨(claim_C4 pendingStore launchOk 20 (by decide)).2.1, ?_, ?_⟩
  · exact ((claim_C4 pendingStore launchOk 20 (by decide)).2.2.1 sampleJob "exec-1"
      (by decide) (by decide) rfl (by decide)).1
  · exact ((claim_C4 pendingStore launchFail 20 (by decide)).2.2.2 sampleJob "quota exceeded"
      (by decide) (by decide) rfl).1

end MlabsSOD
